import Mathlib

/-!
Shallow embedding of the FictionaryBattle game-session orchestrator:
the in-memory entity store (`server/storage.ts`, class `MemStorage`) and
the WebSocket message handlers (`server/websocket.ts`,
`setupWebSocketServer` and `broadcastGameState`).

Modelling conventions:
* JavaScript `Map`s keyed by numeric id are modelled as lists of records
  in insertion order (a `Map` preserves insertion order; `set` on an
  existing key updates in place, `delete` removes the entry).  Keys are
  unique by construction in the source, so an in-place update of every
  entry whose id matches coincides with `Map.set`.
* `x || 1` on a round number (JavaScript falsiness) is `orOne`.
* Player scores are integers; ids, rounds and phases are naturals.
* An error reply carries the storage as it stands at the reply (the
  source sends the error and returns without further mutation), so a
  rejected command leaves the state it carries.
-/

namespace Galactic

/-- Game record (table `games` in `shared/schema.ts`). -/
structure Game where
  id : Nat
  code : String
  phase : Nat
  currentWord : Option String
  dictionary : Bool
  createdAt : String
  currentRound : Nat
deriving DecidableEq

/-- Player record (table `players`). -/
structure Player where
  id : Nat
  gameId : Nat
  name : String
  sessionId : String
  role : String
  isAdmin : Bool
  isSpectator : Bool
  score : Int
deriving DecidableEq

/-- Definition record (table `definitions`). -/
structure Definition where
  id : Nat
  gameId : Nat
  playerId : Nat
  round : Nat
  text : String
  isCorrect : Bool
deriving DecidableEq

/-- Vote record (table `votes`). -/
structure Vote where
  id : Nat
  gameId : Nat
  playerId : Nat
  definitionId : Nat
  round : Nat
deriving DecidableEq

/-- The mutable state of `MemStorage`: entity maps (as insertion-ordered
lists) and the id counters. -/
structure Storage where
  games : List Game
  players : List Player
  definitions : List Definition
  votes : List Vote
  gameIdCounter : Nat
  playerIdCounter : Nat
  definitionIdCounter : Nat
  voteIdCounter : Nat
deriving DecidableEq

/-- JavaScript `n || 1` on a number: 0 is falsy. -/
def orOne (n : Nat) : Nat := if n == 0 then 1 else n

/-- JavaScript whitespace for `String.prototype.trim` (the characters
that occur in practice). -/
def isWsChar (c : Char) : Bool :=
  c == ' ' || c == '\t' || c == '\n' || c == '\r'

/-- JavaScript `String.prototype.trim`: strip whitespace from both ends
(modelled executably over the character list). -/
def jsTrim (s : String) : String :=
  ⟨(((s.data.dropWhile isWsChar).reverse.dropWhile isWsChar).reverse)⟩

/-- JavaScript `s || fallback` on an optional string: missing and `""` are falsy. -/
def strOr (a : Option String) (b : String) : String :=
  match a with
  | some s => if s == "" then b else s
  | none => b

namespace Storage

/-- `MemStorage.getGame`. -/
def getGame (s : Storage) (id : Nat) : Option Game :=
  s.games.find? (fun g => g.id == id)

/-- `MemStorage.getPlayer`. -/
def getPlayer (s : Storage) (id : Nat) : Option Player :=
  s.players.find? (fun p => p.id == id)

/-- `MemStorage.getPlayerBySessionId`: a global lookup over every player
of every game, first match in insertion order. -/
def getPlayerBySessionId (s : Storage) (sessionId : String) : Option Player :=
  s.players.find? (fun p => p.sessionId == sessionId)

/-- `MemStorage.getPlayersByGameId`. -/
def getPlayersByGameId (s : Storage) (gameId : Nat) : List Player :=
  s.players.filter (fun p => p.gameId == gameId)

/-- `MemStorage.getDefinitionsByGameId`. -/
def getDefinitionsByGameId (s : Storage) (gameId round : Nat) : List Definition :=
  s.definitions.filter (fun d => d.gameId == gameId && d.round == round)

/-- `MemStorage.getVotesByGameId`. -/
def getVotesByGameId (s : Storage) (gameId round : Nat) : List Vote :=
  s.votes.filter (fun v => v.gameId == gameId && v.round == round)

/-- `MemStorage.updateGamePhase`; `none` models the thrown
`Game ... not found` error. -/
def updateGamePhase (s : Storage) (id phase : Nat) : Option Storage :=
  match s.getGame id with
  | none => none
  | some _ => some { s with
      games := s.games.map (fun g => if g.id == id then { g with phase := phase } else g) }

/-- `MemStorage.updateGameWord`. -/
def updateGameWord (s : Storage) (id : Nat) (word : String) : Option Storage :=
  match s.getGame id with
  | none => none
  | some _ => some { s with
      games := s.games.map (fun g => if g.id == id then { g with currentWord := some word } else g) }

/-- `MemStorage.startNewRound`: increments the round, resets phase to 1
(WordEntry) and clears the word; deletes nothing. -/
def startNewRound (s : Storage) (gameId : Nat) : Option Storage :=
  match s.getGame gameId with
  | none => none
  | some _ => some { s with
      games := s.games.map (fun g =>
        if g.id == gameId then
          { g with phase := 1, currentWord := some "", currentRound := orOne g.currentRound + 1 }
        else g) }

/-- `MemStorage.clearDefinitionsAndVotesByRound`. -/
def clearDefinitionsAndVotesByRound (s : Storage) (gameId round : Nat) : Storage :=
  { s with
    definitions := s.definitions.filter (fun d => !(d.gameId == gameId && d.round == round)),
    votes := s.votes.filter (fun v => !(v.gameId == gameId && v.round == round)) }

/-- `MemStorage.cancelRound`: clears the current round's definitions and
votes, resets phase to 1 and clears the word, keeping `currentRound`. -/
def cancelRound (s : Storage) (gameId : Nat) : Option Storage :=
  match s.getGame gameId with
  | none => none
  | some g =>
    let s1 := s.clearDefinitionsAndVotesByRound gameId (orOne g.currentRound)
    some { s1 with
      games := s1.games.map (fun x =>
        if x.id == gameId then { x with phase := 1, currentWord := some "" } else x) }

/-- `MemStorage.updatePlayerScore`; `none` models the thrown
`Player ... not found` error. -/
def updatePlayerScore (s : Storage) (id : Nat) (inc : Int) : Option Storage :=
  match s.getPlayer id with
  | none => none
  | some _ => some { s with
      players := s.players.map (fun p => if p.id == id then { p with score := p.score + inc } else p) }

/-- `MemStorage.removePlayer`: deletes the player record, every
definition authored by them and every vote cast by them; `none` models
the thrown error when the player is absent. -/
def removePlayer (s : Storage) (id : Nat) : Option Storage :=
  match s.getPlayer id with
  | none => none
  | some _ => some { s with
      players := s.players.filter (fun p => !(p.id == id)),
      definitions := s.definitions.filter (fun d => !(d.playerId == id)),
      votes := s.votes.filter (fun v => !(v.playerId == id)) }

/-- `MemStorage.createPlayer` applied to the insert record the join
handler builds; `roleOpt` and the flags carry the `||` / `??` defaults
of the source. -/
def createPlayer (s : Storage) (gameId : Nat) (name sessionId : String)
    (roleOpt : Option String) (isAdmin isSpectator : Option Bool) : Storage × Player :=
  let p : Player := {
    id := s.playerIdCounter, gameId := gameId, name := name, sessionId := sessionId,
    role := strOr roleOpt "player",
    isAdmin := isAdmin.getD false,
    isSpectator := isSpectator.getD false,
    score := 0 }
  ({ s with players := s.players ++ [p], playerIdCounter := s.playerIdCounter + 1 }, p)

/-- `MemStorage.createDefinition` (the `round ?? 1` and
`isCorrect ?? false` defaults are resolved by the callers, which always
pass both). -/
def createDefinition (s : Storage) (gameId playerId : Nat) (text : String)
    (isCorrect : Bool) (round : Nat) : Storage × Definition :=
  let d : Definition := {
    id := s.definitionIdCounter, gameId := gameId, playerId := playerId,
    round := round, text := text, isCorrect := isCorrect }
  ({ s with definitions := s.definitions ++ [d],
            definitionIdCounter := s.definitionIdCounter + 1 }, d)

/-- `MemStorage.createVote` (`vote.round || 1`). -/
def createVote (s : Storage) (gameId playerId definitionId round : Nat) : Storage × Vote :=
  let v : Vote := {
    id := s.voteIdCounter, gameId := gameId, playerId := playerId,
    definitionId := definitionId, round := orOne round }
  ({ s with votes := s.votes ++ [v], voteIdCounter := s.voteIdCounter + 1 }, v)

end Storage

/-- The shared `{game, players, definitions, votes}` snapshot
(`GameState` in `shared/schema.ts`, before `currentPlayer` is attached). -/
structure GameStateSnap where
  game : Game
  players : List Player
  definitions : List Definition
  votes : List Vote
deriving DecidableEq

/-- The personalized `gameState` payload sent to one recipient. -/
structure StatePayload where
  snap : GameStateSnap
  currentPlayer : Player
deriving DecidableEq

/-- `MemStorage.getGameState`: the round argument falls back to the
game's current round, then to 1 (`round || game.currentRound || 1`). -/
def Storage.getGameState (s : Storage) (gameId roundOpt : Nat) : Option GameStateSnap :=
  match s.getGame gameId with
  | none => none
  | some g =>
    let r := if roundOpt == 0 then orOne g.currentRound else roundOpt
    some { game := g,
           players := s.getPlayersByGameId gameId,
           definitions := s.getDefinitionsByGameId gameId r,
           votes := s.getVotesByGameId gameId r }

/-- Result of one message handler: an error reply to the sender (with
the storage as it stands then) or success followed by a room broadcast. -/
inductive HRes where
  | err : Storage → String → HRes
  | ok : Storage → HRes
deriving DecidableEq

/-- Result of the `join` case: error, an existing player found for the
session, or a freshly created player. -/
inductive JoinRes where
  | err : Storage → String → JoinRes
  | existing : Storage → Player → JoinRes
  | created : Storage → Player → JoinRes
deriving DecidableEq

/-- The `join` case of `setupWebSocketServer`: looks the session up
globally; creates a player only when the session resolves to no player
anywhere, marking it admin exactly when the game has no players yet.
`randomId` stands for the `Math.floor(Math.random() * 100)` name suffix. -/
def joinHandler (s : Storage) (gameId : Nat) (sessionId : String)
    (roleOpt : Option String) (specFlag : Bool) (randomId : Nat) : JoinRes :=
  match s.getGame gameId with
  | none => .err s "Game not found. Please check your game code."
  | some _ =>
    match s.getPlayerBySessionId sessionId with
    | some p => .existing s p
    | none =>
      let role := strOr roleOpt (if specFlag then "spectator" else "player")
      let isSpec := role == "spectator"
      let isFirstPlayer := (s.getPlayersByGameId gameId).isEmpty
      let name := (if isSpec then "Spectator " else "Player ") ++ toString randomId
      let sp := s.createPlayer gameId name sessionId (some role) (some isFirstPlayer) (some isSpec)
      .created sp.1 sp.2

/-- The `submitWord` case: spectator check, word validation
(`!word || !word.trim()`), then set the word and move to phase 2. -/
def submitWordHandler (s : Storage) (gameId : Nat) (sessionId word : String) : HRes :=
  match s.getPlayerBySessionId sessionId with
  | none => .err s "Player not found. Please rejoin the game."
  | some player =>
    if player.role == "spectator" || player.isSpectator then
      .err s "Spectators cannot submit words."
    else if jsTrim word == "" then
      .err s "Please enter a valid word."
    else
      match s.updateGameWord gameId (jsTrim word) with
      | none => .err s "An error occurred"
      | some s1 =>
        match s1.updateGamePhase gameId 2 with
        | none => .err s1 "An error occurred"
        | some s2 => .ok s2

/-- The `submitDefinition` case: spectator and duplicate checks, then the
definition is stored; the text is not validated. -/
def submitDefinitionHandler (s : Storage) (gameId : Nat) (sessionId text : String)
    (isCorrect : Bool) (payloadRound : Nat) : HRes :=
  match s.getPlayerBySessionId sessionId with
  | none => .err s "Player not found. Please rejoin the game."
  | some player =>
    if player.role == "spectator" || player.isSpectator then
      .err s "Spectators cannot submit definitions."
    else
      let round := orOne payloadRound
      let existingDefinitions := s.getDefinitionsByGameId gameId round
      if existingDefinitions.any (fun d => d.playerId == player.id) then
        .err s "You have already submitted a definition for this round."
      else
        .ok (s.createDefinition gameId player.id text isCorrect round).1

/-- The `endSubmissions` case: spectator check, then phase 3. -/
def endSubmissionsHandler (s : Storage) (gameId : Nat) (sessionId : String) : HRes :=
  match s.getPlayerBySessionId sessionId with
  | none => .err s "Player not found. Please rejoin the game."
  | some player =>
    if player.role == "spectator" || player.isSpectator then
      .err s "Spectators cannot control game phases."
    else
      match s.updateGamePhase gameId 3 with
      | none => .err s "An error occurred"
      | some s1 => .ok s1

/-- The `submitVote` case: spectator and duplicate checks, then the vote
is stored; the definition reference is not checked. -/
def submitVoteHandler (s : Storage) (gameId : Nat) (sessionId : String)
    (definitionId payloadRound : Nat) : HRes :=
  match s.getPlayerBySessionId sessionId with
  | none => .err s "Player not found. Please rejoin the game."
  | some player =>
    if player.role == "spectator" || player.isSpectator then
      .err s "Spectators cannot vote."
    else
      let voteRound := orOne payloadRound
      let existingVotes := s.getVotesByGameId gameId voteRound
      if existingVotes.any (fun v => v.playerId == player.id) then
        .err s "You have already voted for this round."
      else
        .ok (s.createVote gameId player.id definitionId voteRound).1

/-- Number of votes in `vs` for the definition with id `defId`. -/
def votesFor (vs : List Vote) (defId : Nat) : Nat :=
  (vs.filter (fun v => v.definitionId == defId)).length

/-- One step of the first scoring pass of the `endVoting` case: for a
non-correct definition with at least one vote whose author exists and is
not a spectator (by the `isSpectator` flag), add the vote count to the
author's score. -/
def scoreDefStep (vs : List Vote) (acc : Storage) (d : Definition) : Storage :=
  if !d.isCorrect && votesFor vs d.id > 0 then
    match acc.getPlayer d.playerId with
    | some p =>
      if !p.isSpectator then
        (acc.updatePlayerScore d.playerId (votesFor vs d.id : Int)).getD acc
      else acc
    | none => acc
  else acc

/-- First scoring pass of the `endVoting` case, over every definition of
the round. -/
def scoreDefinitions (s : Storage) (defs : List Definition) (vs : List Vote) : Storage :=
  defs.foldl (scoreDefStep vs) s

/-- One step of the second scoring pass: an existing non-spectator voter
of the correct definition gains 2 points. -/
def scoreVoteStep (acc : Storage) (v : Vote) : Storage :=
  match acc.getPlayer v.playerId with
  | some p =>
    if !p.isSpectator then (acc.updatePlayerScore v.playerId 2).getD acc else acc
  | none => acc

/-- Second scoring pass of the `endVoting` case: if a correct definition
is found, every existing non-spectator voter for it gains 2 points. -/
def scoreCorrectVotes (s : Storage) (defs : List Definition) (vs : List Vote) : Storage :=
  match defs.find? (fun d => d.isCorrect) with
  | some correctDefinition =>
    (vs.filter (fun v => v.definitionId == correctDefinition.id)).foldl scoreVoteStep s
  | none => s

/-- The `endVoting` case: spectator check, phase 4, then the two scoring
passes over the round's definitions and votes. -/
def endVotingHandler (s : Storage) (gameId : Nat) (sessionId : String)
    (payloadRound : Nat) : HRes :=
  match s.getPlayerBySessionId sessionId with
  | none => .err s "Player not found. Please rejoin the game."
  | some player =>
    if player.role == "spectator" || player.isSpectator then
      .err s "Spectators cannot control game phases."
    else
      match s.updateGamePhase gameId 4 with
      | none => .err s "An error occurred"
      | some s1 =>
        let round := orOne payloadRound
        let defs := s1.getDefinitionsByGameId gameId round
        let vs := s1.getVotesByGameId gameId round
        .ok (scoreCorrectVotes (scoreDefinitions s1 defs vs) defs vs)

/-- The `newRound` case: spectator check, then `startNewRound`. -/
def newRoundHandler (s : Storage) (gameId : Nat) (sessionId : String) : HRes :=
  match s.getPlayerBySessionId sessionId with
  | none => .err s "Player not found. Please rejoin the game."
  | some player =>
    if player.role == "spectator" || player.isSpectator then
      .err s "Spectators cannot control game phases."
    else
      match s.startNewRound gameId with
      | none => .err s "An error occurred"
      | some s1 => .ok s1

/-- The `cancelRound` case: admin check, then `cancelRound`. -/
def cancelRoundHandler (s : Storage) (gameId : Nat) (sessionId : String) : HRes :=
  match s.getPlayerBySessionId sessionId with
  | none => .err s "Player not found. Please rejoin the game."
  | some player =>
    if !player.isAdmin then
      .err s "Only admins can cancel the current round."
    else
      match s.cancelRound gameId with
      | none => .err s "An error occurred"
      | some s1 => .ok s1

/-- The `awardBonus` case: admin check, target id truthiness check,
then +3 to an existing non-spectator target; a spectator target is an
error; a missing target is silently skipped before the broadcast. -/
def awardBonusHandler (s : Storage) (gameId : Nat) (sessionId : String)
    (playerId : Nat) : HRes :=
  match s.getPlayerBySessionId sessionId with
  | none => .err s "Player not found. Please rejoin the game."
  | some adminPlayer =>
    if !adminPlayer.isAdmin then
      .err s "Only admins can award bonus points."
    else if playerId == 0 then
      .err s "No player ID provided."
    else
      match s.getPlayer playerId with
      | some playerToAward =>
        if !playerToAward.isSpectator then
          match s.updatePlayerScore playerId 3 with
          | none => .err s "An error occurred"
          | some s1 =>
            match s1.getGame gameId with
            | none => .err s1 "An error occurred"
            | some _ => .ok s1
        else
          .err s "Cannot award points to spectators."
      | none =>
        match s.getGame gameId with
        | none => .err s "An error occurred"
        | some _ => .ok s

/-- Connection registry entry: session id paired with whether the socket
`readyState` is `OPEN`. -/
def lookupConn (conns : List (String × Bool)) (sid : String) : Option Bool :=
  (conns.find? (fun c => c.1 == sid)).map (fun c => c.2)

/-- `broadcastGameState`: for every session of the room, in order, whose
socket is present and open and whose session resolves to a player, send
the shared snapshot with that player attached as `currentPlayer`. -/
def broadcastGameState (room : List String) (conns : List (String × Bool))
    (s : Storage) (gs : GameStateSnap) : List (String × StatePayload) :=
  room.filterMap (fun sid =>
    match lookupConn conns sid with
    | some true =>
      (s.getPlayerBySessionId sid).map (fun p => (sid, ⟨gs, p⟩))
    | _ => none)

/-! ## General lemmas about the store primitives -/

/-- Mapping a function that does not change a predicate commutes with `find?`. -/
theorem find?_map_presv {α : Type} (f : α → α) (p : α → Bool) (l : List α)
    (h : ∀ x, p (f x) = p x) : (l.map f).find? p = (l.find? p).map f := by
  induction l with
  | nil => rfl
  | cons a t ih =>
    by_cases hpa : p a = true
    · rw [List.map_cons, List.find?_cons_of_pos _ (by rw [h]; exact hpa),
        List.find?_cons_of_pos _ hpa]
      rfl
    · rw [List.map_cons, List.find?_cons_of_neg _ (by rw [h]; simpa using hpa),
        List.find?_cons_of_neg _ (by simpa using hpa), ih]

/-- Filtering with `p` after filtering with its negation yields nothing. -/
theorem filter_not_filter {α : Type} (p : α → Bool) (l : List α) :
    (l.filter (fun x => !(p x))).filter p = [] := by
  rw [List.filter_filter]
  simp

/-- `getGame` after an in-place update of the matching game record. -/
theorem getGame_mapGames (s : Storage) (gid : Nat) (F : Game → Game)
    (hF : ∀ g, (F g).id = g.id) :
    Storage.getGame { s with games := s.games.map (fun g => if g.id == gid then F g else g) } gid
      = (s.getGame gid).map (fun g => if g.id == gid then F g else g) := by
  unfold Storage.getGame
  exact find?_map_presv _ _ _ (by
    intro x
    by_cases hx : (x.id == gid) = true <;> simp [hx, hF])

theorem updateGamePhase_getGame {s s' : Storage} {gid ph : Nat} {g : Game}
    (h : s.updateGamePhase gid ph = some s') (hg : s.getGame gid = some g) :
    s'.getGame gid = some { g with phase := ph } := by
  unfold Storage.updateGamePhase at h
  rw [hg] at h
  cases h
  rw [getGame_mapGames s gid (fun g => { g with phase := ph }) (fun _ => rfl), hg]
  have hg2 : s.games.find? (fun x => x.id == gid) = some g := hg
  have hid : g.id = gid := by simpa using List.find?_some hg2
  simp [hid]

theorem updateGamePhase_frame {s s' : Storage} {gid ph : Nat}
    (h : s.updateGamePhase gid ph = some s') :
    s'.players = s.players ∧ s'.definitions = s.definitions ∧ s'.votes = s.votes := by
  unfold Storage.updateGamePhase at h
  cases hg : s.getGame gid <;> rw [hg] at h <;> cases h
  exact ⟨rfl, rfl, rfl⟩

theorem updateGameWord_frame {s s' : Storage} {gid : Nat} {w : String}
    (h : s.updateGameWord gid w = some s') :
    s'.players = s.players ∧ s'.definitions = s.definitions ∧ s'.votes = s.votes := by
  unfold Storage.updateGameWord at h
  cases hg : s.getGame gid <;> rw [hg] at h <;> cases h
  exact ⟨rfl, rfl, rfl⟩

theorem updateGameWord_getGame_isSome {s s' : Storage} {gid : Nat} {w : String}
    (h : s.updateGameWord gid w = some s') {g : Game} (hg : s.getGame gid = some g) :
    s'.getGame gid = some { g with currentWord := some w } := by
  unfold Storage.updateGameWord at h
  rw [hg] at h
  cases h
  rw [getGame_mapGames s gid (fun g => { g with currentWord := some w }) (fun _ => rfl), hg]
  have hg2 : s.games.find? (fun x => x.id == gid) = some g := hg
  have hid : g.id = gid := by simpa using List.find?_some hg2
  simp [hid]

theorem startNewRound_getGame {s s' : Storage} {gid : Nat} {g : Game}
    (h : s.startNewRound gid = some s') (hg : s.getGame gid = some g) :
    s'.getGame gid
      = some { g with phase := 1, currentWord := some "",
                      currentRound := orOne g.currentRound + 1 } := by
  unfold Storage.startNewRound at h
  rw [hg] at h
  cases h
  rw [getGame_mapGames s gid
    (fun g => { g with phase := 1, currentWord := some "",
                       currentRound := orOne g.currentRound + 1 }) (fun _ => rfl), hg]
  have hg2 : s.games.find? (fun x => x.id == gid) = some g := hg
  have hid : g.id = gid := by simpa using List.find?_some hg2
  simp [hid]

theorem startNewRound_frame {s s' : Storage} {gid : Nat}
    (h : s.startNewRound gid = some s') :
    s'.players = s.players ∧ s'.definitions = s.definitions ∧ s'.votes = s.votes := by
  unfold Storage.startNewRound at h
  cases hg : s.getGame gid <;> rw [hg] at h <;> cases h
  exact ⟨rfl, rfl, rfl⟩

theorem updatePlayerScore_getD_games (s : Storage) (pid : Nat) (k : Int) :
    ((s.updatePlayerScore pid k).getD s).games = s.games := by
  unfold Storage.updatePlayerScore
  cases s.getPlayer pid <;> simp

theorem scoreDefStep_games (vs : List Vote) (s : Storage) (d : Definition) :
    (scoreDefStep vs s d).games = s.games := by
  unfold scoreDefStep
  repeat' split
  all_goals first
  | exact updatePlayerScore_getD_games _ _ _
  | rfl

theorem scoreDefinitions_games (defs : List Definition) (s : Storage) (vs : List Vote) :
    (scoreDefinitions s defs vs).games = s.games := by
  induction defs generalizing s with
  | nil => rfl
  | cons d ds ih =>
    show (scoreDefinitions (scoreDefStep vs s d) ds vs).games = s.games
    rw [ih, scoreDefStep_games]

theorem scoreVoteStep_games (s : Storage) (v : Vote) :
    (scoreVoteStep s v).games = s.games := by
  unfold scoreVoteStep
  repeat' split
  all_goals first
  | exact updatePlayerScore_getD_games _ _ _
  | rfl

theorem scoreCorrectVotes_games (s : Storage) (defs : List Definition) (vs : List Vote) :
    (scoreCorrectVotes s defs vs).games = s.games := by
  unfold scoreCorrectVotes
  split
  · generalize (vs.filter _) = l
    induction l generalizing s with
    | nil => rfl
    | cons v t ih =>
      show (List.foldl scoreVoteStep (scoreVoteStep s v) t).games = s.games
      rw [ih, scoreVoteStep_games]
  · rfl

theorem updateGamePhase_phase {s s' : Storage} {gid ph : Nat}
    (h : s.updateGamePhase gid ph = some s') :
    (s'.getGame gid).map Game.phase = some ph := by
  have hex : ∃ g, s.getGame gid = some g := by
    unfold Storage.updateGamePhase at h
    cases hg : s.getGame gid <;> rw [hg] at h
    · cases h
    · exact ⟨_, rfl⟩
  obtain ⟨g, hg⟩ := hex
  rw [updateGamePhase_getGame h hg]
  rfl

/-- Success of `submitWord` means: sender found and not a spectator, word
not blank, word stored, phase set to 2 — with no condition on the phase
the game was in. -/
theorem submitWordHandler_ok {s s' : Storage} {gid : Nat} {sid w : String}
    (h : submitWordHandler s gid sid w = .ok s') :
    ∃ p s1, s.getPlayerBySessionId sid = some p ∧
      (p.role == "spectator" || p.isSpectator) = false ∧
      (jsTrim w == "") = false ∧
      s.updateGameWord gid (jsTrim w) = some s1 ∧
      s1.updateGamePhase gid 2 = some s' := by
  unfold submitWordHandler at h
  split at h
  · exact HRes.noConfusion h
  rename_i p hp
  split at h
  · exact HRes.noConfusion h
  rename_i hspec
  split at h
  · exact HRes.noConfusion h
  rename_i hw
  split at h
  · exact HRes.noConfusion h
  rename_i s1 hup
  split at h
  · exact HRes.noConfusion h
  rename_i s2 hph
  cases h
  exact ⟨p, s1, hp, by simpa using hspec, by simpa using hw, hup, hph⟩

theorem endSubmissionsHandler_ok {s s' : Storage} {gid : Nat} {sid : String}
    (h : endSubmissionsHandler s gid sid = .ok s') :
    ∃ p, s.getPlayerBySessionId sid = some p ∧
      (p.role == "spectator" || p.isSpectator) = false ∧
      s.updateGamePhase gid 3 = some s' := by
  unfold endSubmissionsHandler at h
  split at h
  · exact HRes.noConfusion h
  rename_i p hp
  split at h
  · exact HRes.noConfusion h
  rename_i hspec
  split at h
  · exact HRes.noConfusion h
  rename_i s1 hph
  cases h
  exact ⟨p, hp, by simpa using hspec, hph⟩

theorem newRoundHandler_ok {s s' : Storage} {gid : Nat} {sid : String}
    (h : newRoundHandler s gid sid = .ok s') :
    ∃ p, s.getPlayerBySessionId sid = some p ∧
      (p.role == "spectator" || p.isSpectator) = false ∧
      s.startNewRound gid = some s' := by
  unfold newRoundHandler at h
  split at h
  · exact HRes.noConfusion h
  rename_i p hp
  split at h
  · exact HRes.noConfusion h
  rename_i hspec
  split at h
  · exact HRes.noConfusion h
  rename_i s1 hnr
  cases h
  exact ⟨p, hp, by simpa using hspec, hnr⟩

theorem endVotingHandler_ok {s s' : Storage} {gid r : Nat} {sid : String}
    (h : endVotingHandler s gid sid r = .ok s') :
    ∃ p s1, s.getPlayerBySessionId sid = some p ∧
      (p.role == "spectator" || p.isSpectator) = false ∧
      s.updateGamePhase gid 4 = some s1 ∧
      s' = scoreCorrectVotes
              (scoreDefinitions s1 (s1.getDefinitionsByGameId gid (orOne r))
                (s1.getVotesByGameId gid (orOne r)))
              (s1.getDefinitionsByGameId gid (orOne r))
              (s1.getVotesByGameId gid (orOne r)) := by
  unfold endVotingHandler at h
  split at h
  · exact HRes.noConfusion h
  rename_i p hp
  split at h
  · exact HRes.noConfusion h
  rename_i hspec
  split at h
  · exact HRes.noConfusion h
  rename_i s1 hph
  cases h
  exact ⟨p, s1, hp, by simpa using hspec, hph, rfl⟩

theorem startNewRound_phase {s s' : Storage} {gid : Nat}
    (h : s.startNewRound gid = some s') :
    (s'.getGame gid).map Game.phase = some 1 := by
  have hex : ∃ g, s.getGame gid = some g := by
    unfold Storage.startNewRound at h
    cases hg : s.getGame gid <;> rw [hg] at h
    · cases h
    · exact ⟨_, rfl⟩
  obtain ⟨g, hg⟩ := hex
  rw [startNewRound_getGame h hg]
  rfl

/-! ## Claim C2 (corrected) -/

/-- Claim C2, counterexample part: a game sitting in phase 3 (Voting).
The claim says submitWord transitions to Definition only from WordEntry;
the code performs the transition from Voting as well. -/
def gC2 : Game :=
  { id := 1, code := "ABC123", phase := 3, currentWord := some "zephyr",
    dictionary := true, createdAt := "t", currentRound := 1 }

def pC2 : Player :=
  { id := 1, gameId := 1, name := "Player 1", sessionId := "a", role := "player",
    isAdmin := true, isSpectator := false, score := 0 }

def csC2 : Storage :=
  { games := [gC2], players := [pC2], definitions := [], votes := [],
    gameIdCounter := 2, playerIdCounter := 2, definitionIdCounter := 1, voteIdCounter := 1 }

/-- The storage a handler result carries, for naming concrete outcomes. -/
def resOf (r : HRes) : Storage :=
  match r with
  | .ok t => t
  | .err t _ => t

/-- C2 is false on the code: with the game of `csC2` in phase 3 (Voting),
`submitWord` succeeds and moves the phase to 2 (Definition), a
WordEntry→Definition transition performed from Voting; the handlers never
read the current phase. -/
theorem claim2_counterexample :
    (csC2.getGame 1).map Game.phase = some 3 ∧
    submitWordHandler csC2 1 "a" "plover" = .ok (resOf (submitWordHandler csC2 1 "a" "plover")) ∧
    ((resOf (submitWordHandler csC2 1 "a" "plover")).getGame 1).map Game.phase = some 2 := by
  refine ⟨rfl, by decide, by decide⟩

/-- Claim C2 as amended: whenever `submitWord`, `endSubmissions`,
`endVoting` or `newRound` succeeds, the game's phase afterwards is 2, 3,
4 or 1 respectively — regardless of the phase the game was in; no
handler checks the source phase of its transition. -/
theorem claim2_transitions_unguarded (s : Storage) (gid : Nat) (sid w : String) (r : Nat) :
    (∀ s', submitWordHandler s gid sid w = .ok s' → (s'.getGame gid).map Game.phase = some 2) ∧
    (∀ s', endSubmissionsHandler s gid sid = .ok s' → (s'.getGame gid).map Game.phase = some 3) ∧
    (∀ s', endVotingHandler s gid sid r = .ok s' → (s'.getGame gid).map Game.phase = some 4) ∧
    (∀ s', newRoundHandler s gid sid = .ok s' → (s'.getGame gid).map Game.phase = some 1) := by
  refine ⟨?_, ?_, ?_, ?_⟩
  · intro s' h
    obtain ⟨p, s1, -, -, -, -, hph⟩ := submitWordHandler_ok h
    exact updateGamePhase_phase hph
  · intro s' h
    obtain ⟨p, -, -, hph⟩ := endSubmissionsHandler_ok h
    exact updateGamePhase_phase hph
  · intro s' h
    obtain ⟨p, s1, -, -, hph, hs'⟩ := endVotingHandler_ok h
    have hgames : s'.games = s1.games := by
      rw [hs', scoreCorrectVotes_games, scoreDefinitions_games]
    have : s'.getGame gid = s1.getGame gid := by
      unfold Storage.getGame
      rw [hgames]
    rw [this]
    exact updateGamePhase_phase hph
  · intro s' h
    obtain ⟨p, -, -, hnr⟩ := newRoundHandler_ok h
    exact startNewRound_phase hnr

/-- Witness for the amended C2: all four transitions run on `csC2`
(phase 3) and land in their target phases. -/
theorem claim2_witness :
    ((resOf (submitWordHandler csC2 1 "a" "plover")).getGame 1).map Game.phase = some 2 ∧
    ((resOf (endSubmissionsHandler csC2 1 "a")).getGame 1).map Game.phase = some 3 ∧
    ((resOf (endVotingHandler csC2 1 "a" 1)).getGame 1).map Game.phase = some 4 ∧
    ((resOf (newRoundHandler csC2 1 "a")).getGame 1).map Game.phase = some 1 := by
  obtain ⟨h1, h2, h3, h4⟩ := claim2_transitions_unguarded csC2 1 "a" "plover" 1
  exact ⟨h1 _ (by decide), h2 _ (by decide), h3 _ (by decide), h4 _ (by decide)⟩

/-! ## Claim C6 (confirmed) -/

theorem cancelRound_spec {s s' : Storage} {gid : Nat} {g : Game}
    (hg : s.getGame gid = some g) (h : s.cancelRound gid = some s') :
    s'.getGame gid = some { g with phase := 1, currentWord := some "" } ∧
    s'.definitions = s.definitions.filter
      (fun d => !(d.gameId == gid && d.round == orOne g.currentRound)) ∧
    s'.votes = s.votes.filter
      (fun v => !(v.gameId == gid && v.round == orOne g.currentRound)) ∧
    s'.getDefinitionsByGameId gid (orOne g.currentRound) = [] ∧
    s'.getVotesByGameId gid (orOne g.currentRound) = [] := by
  unfold Storage.cancelRound at h
  rw [hg] at h
  cases h
  refine ⟨?_, rfl, rfl, ?_, ?_⟩
  · rw [getGame_mapGames (s.clearDefinitionsAndVotesByRound gid (orOne g.currentRound)) gid
      (fun x => { x with phase := 1, currentWord := some "" }) (fun _ => rfl)]
    have hg1 : (s.clearDefinitionsAndVotesByRound gid (orOne g.currentRound)).getGame gid
        = some g := hg
    rw [hg1]
    have hg2 : s.games.find? (fun x => x.id == gid) = some g := hg
    have hid : g.id = gid := by simpa using List.find?_some hg2
    simp [hid]
  · exact filter_not_filter _ _
  · exact filter_not_filter _ _

theorem startNewRound_spec {s s' : Storage} {gid : Nat} {g : Game}
    (hg : s.getGame gid = some g) (h : s.startNewRound gid = some s') :
    s'.getGame gid = some { g with phase := 1, currentWord := some "",
                                   currentRound := orOne g.currentRound + 1 } ∧
    s'.definitions = s.definitions ∧ s'.votes = s.votes :=
  ⟨startNewRound_getGame h hg, (startNewRound_frame h).2.1, (startNewRound_frame h).2.2⟩

/-- C6: `cancelRound` resets phase to 1 and clears the word without
touching `currentRound`, and deletes exactly the current round's
definitions and votes, so the round-scoped queries return empty;
`startNewRound` (the `newRound` command) bumps `currentRound` by one,
resets phase and word, and deletes nothing; and the `cancelRound`
command is rejected for a non-admin sender. -/
theorem claim6_cancel_vs_newRound (s : Storage) (gid : Nat) (g : Game) (sid : String)
    (hg : s.getGame gid = some g) :
    (∃ s', s.cancelRound gid = some s' ∧
        s'.getGame gid = some { g with phase := 1, currentWord := some "" } ∧
        s'.getDefinitionsByGameId gid (orOne g.currentRound) = [] ∧
        s'.getVotesByGameId gid (orOne g.currentRound) = [] ∧
        s'.definitions = s.definitions.filter
          (fun d => !(d.gameId == gid && d.round == orOne g.currentRound)) ∧
        s'.votes = s.votes.filter
          (fun v => !(v.gameId == gid && v.round == orOne g.currentRound))) ∧
    (∃ s2, s.startNewRound gid = some s2 ∧
        s2.getGame gid = some { g with phase := 1, currentWord := some "",
                                       currentRound := orOne g.currentRound + 1 } ∧
        s2.definitions = s.definitions ∧ s2.votes = s.votes) ∧
    (∀ q, s.getPlayerBySessionId sid = some q → q.isAdmin = false →
        cancelRoundHandler s gid sid = .err s "Only admins can cancel the current round.") := by
  refine ⟨?_, ?_, ?_⟩
  · have hc : ∃ s', s.cancelRound gid = some s' := by
      unfold Storage.cancelRound
      rw [hg]
      exact ⟨_, rfl⟩
    obtain ⟨s', hc⟩ := hc
    obtain ⟨h1, h2, h3, h4, h5⟩ := cancelRound_spec hg hc
    exact ⟨s', hc, h1, h4, h5, h2, h3⟩
  · have hn : ∃ s2, s.startNewRound gid = some s2 := by
      unfold Storage.startNewRound
      rw [hg]
      exact ⟨_, rfl⟩
    obtain ⟨s2, hn⟩ := hn
    obtain ⟨h1, h2, h3⟩ := startNewRound_spec hg hn
    exact ⟨s2, hn, h1, h2, h3⟩
  · intro q hq hadm
    unfold cancelRoundHandler
    rw [hq]
    simp [hadm]

/-- Concrete scenario for C6: game in round 2 with definitions and votes
in rounds 1 and 2, and a non-admin player with session `b`. -/
def gC6 : Game :=
  { id := 1, code := "C6GAME", phase := 4, currentWord := some "word",
    dictionary := true, createdAt := "t", currentRound := 2 }

def csC6 : Storage :=
  { games := [gC6],
    players := [{ id := 1, gameId := 1, name := "P1", sessionId := "a", role := "player",
                  isAdmin := true, isSpectator := false, score := 0 },
                { id := 2, gameId := 1, name := "P2", sessionId := "b", role := "player",
                  isAdmin := false, isSpectator := false, score := 0 }],
    definitions := [{ id := 1, gameId := 1, playerId := 1, round := 1, text := "old", isCorrect := false },
                    { id := 2, gameId := 1, playerId := 2, round := 2, text := "new", isCorrect := false }],
    votes := [{ id := 1, gameId := 1, playerId := 2, definitionId := 1, round := 1 },
              { id := 2, gameId := 1, playerId := 1, definitionId := 2, round := 2 }],
    gameIdCounter := 2, playerIdCounter := 3, definitionIdCounter := 3, voteIdCounter := 3 }

theorem claim6_witness :
    (∃ s', csC6.cancelRound 1 = some s' ∧
        s'.getDefinitionsByGameId 1 (orOne gC6.currentRound) = [] ∧
        s'.getVotesByGameId 1 (orOne gC6.currentRound) = []) ∧
    (∃ s2, csC6.startNewRound 1 = some s2 ∧ s2.definitions = csC6.definitions) ∧
    cancelRoundHandler csC6 1 "b" = .err csC6 "Only admins can cancel the current round." := by
  obtain ⟨⟨s', hc, hgm, hq1, hq2, hf1, hf2⟩, ⟨s2, hn, hgm2, hd2, hv2⟩, hrej⟩ :=
    claim6_cancel_vs_newRound csC6 1 gC6 "b" rfl
  refine ⟨⟨s', hc, hq1, hq2⟩, ⟨s2, hn, hd2⟩, ?_⟩
  exact hrej { id := 2, gameId := 1, name := "P2", sessionId := "b", role := "player",
               isAdmin := false, isSpectator := false, score := 0 } (by decide) rfl

/-! ## Shared concrete base state -/

/-- A game in the Definition phase with one admin player (session `a`),
one ordinary player (session `b`) and one spectator (session `c`). -/
def gBase : Game :=
  { id := 1, code := "GAME01", phase := 2, currentWord := some "plover",
    dictionary := true, createdAt := "t", currentRound := 1 }

def pAlice : Player :=
  { id := 1, gameId := 1, name := "P1", sessionId := "a", role := "player",
    isAdmin := true, isSpectator := false, score := 0 }

def pBob : Player :=
  { id := 2, gameId := 1, name := "P2", sessionId := "b", role := "player",
    isAdmin := false, isSpectator := false, score := 0 }

def pSpec : Player :=
  { id := 3, gameId := 1, name := "S1", sessionId := "c", role := "spectator",
    isAdmin := false, isSpectator := true, score := 0 }

def csBase : Storage :=
  { games := [gBase], players := [pAlice, pBob, pSpec], definitions := [], votes := [],
    gameIdCounter := 2, playerIdCounter := 4, definitionIdCounter := 1, voteIdCounter := 1 }

/-! ## Claims C3 and C4 (corrected) and C5 (confirmed) -/

theorem submitDefinitionHandler_ok {s s' : Storage} {gid : Nat} {sid text : String}
    {cor : Bool} {r : Nat}
    (h : submitDefinitionHandler s gid sid text cor r = .ok s') :
    ∃ p, s.getPlayerBySessionId sid = some p ∧
      (p.role == "spectator" || p.isSpectator) = false ∧
      ((s.getDefinitionsByGameId gid (orOne r)).any (fun d => d.playerId == p.id)) = false ∧
      s' = (s.createDefinition gid p.id text cor (orOne r)).1 := by
  unfold submitDefinitionHandler at h
  split at h
  · exact HRes.noConfusion h
  rename_i p hp
  split at h
  · exact HRes.noConfusion h
  rename_i hspec
  dsimp only at h
  split at h
  · exact HRes.noConfusion h
  rename_i hdup
  cases h
  exact ⟨p, hp, by simpa using hspec, by simpa using hdup, rfl⟩

theorem submitVoteHandler_ok {s s' : Storage} {gid defId r : Nat} {sid : String}
    (h : submitVoteHandler s gid sid defId r = .ok s') :
    ∃ p, s.getPlayerBySessionId sid = some p ∧
      (p.role == "spectator" || p.isSpectator) = false ∧
      ((s.getVotesByGameId gid (orOne r)).any (fun v => v.playerId == p.id)) = false ∧
      s' = (s.createVote gid p.id defId (orOne r)).1 := by
  unfold submitVoteHandler at h
  split at h
  · exact HRes.noConfusion h
  rename_i p hp
  split at h
  · exact HRes.noConfusion h
  rename_i hspec
  dsimp only at h
  split at h
  · exact HRes.noConfusion h
  rename_i hdup
  cases h
  exact ⟨p, hp, by simpa using hspec, by simpa using hdup, rfl⟩

/-- C3 is false on the code: a whitespace-only definition text is not
rejected — with the sender resolved, a non-spectator, and no duplicate,
the handler succeeds and stores a Definition with that text. -/
theorem claim3_counterexample :
    jsTrim "   " = "" ∧
    submitDefinitionHandler csBase 1 "a" "   " false 1 =
      .ok (resOf (submitDefinitionHandler csBase 1 "a" "   " false 1)) ∧
    (resOf (submitDefinitionHandler csBase 1 "a" "   " false 1)).definitions =
      [{ id := 1, gameId := 1, playerId := 1, round := 1, text := "   ", isCorrect := false }] := by
  refine ⟨by decide, by decide, by decide⟩

/-- C3 as amended: `submitDefinition` performs no text validation; a
command whose text is empty or whitespace-only is processed like any
other, and when the sender exists, is not a spectator and has not yet
submitted for the round, a Definition with exactly that text is stored. -/
theorem claim3_no_text_validation (s : Storage) (gid : Nat) (sid text : String)
    (cor : Bool) (r : Nat) (p : Player)
    (_hblank : jsTrim text = "")
    (hp : s.getPlayerBySessionId sid = some p)
    (hspec : (p.role == "spectator" || p.isSpectator) = false)
    (hdup : ((s.getDefinitionsByGameId gid (orOne r)).any (fun d => d.playerId == p.id)) = false) :
    submitDefinitionHandler s gid sid text cor r =
      .ok { s with
        definitions := s.definitions ++
          [{ id := s.definitionIdCounter, gameId := gid, playerId := p.id,
             round := orOne r, text := text, isCorrect := cor }],
        definitionIdCounter := s.definitionIdCounter + 1 } := by
  unfold submitDefinitionHandler
  rw [hp]
  simp [hspec, hdup, Storage.createDefinition]

theorem claim3_witness :
    submitDefinitionHandler csBase 1 "b" " " false 1 =
      .ok { csBase with
        definitions := [{ id := 1, gameId := 1, playerId := 2, round := 1,
                          text := " ", isCorrect := false }],
        definitionIdCounter := 2 } :=
  claim3_no_text_validation csBase 1 "b" " " false 1 pBob (by decide) (by decide)
    (by decide) (by decide)

/-- C4 is false on the code: a vote whose `definitionId` references no
stored definition at all is accepted and stored, so stored votes can
dangle. -/
theorem claim4_counterexample :
    csBase.definitions = [] ∧
    submitVoteHandler csBase 1 "a" 999 1 =
      .ok (resOf (submitVoteHandler csBase 1 "a" 999 1)) ∧
    (resOf (submitVoteHandler csBase 1 "a" 999 1)).votes =
      [{ id := 1, gameId := 1, playerId := 1, definitionId := 999, round := 1 }] := by
  refine ⟨rfl, by decide, by decide⟩

theorem orOne_orOne (n : Nat) : orOne (orOne n) = orOne n := by
  unfold orOne
  split <;> simp_all

/-- C4 as amended: `submitVote` never checks the `definitionId`; when the
sender exists, is not a spectator and has not voted this round, the vote
is stored even though its `definitionId` references no Definition of
that game and round. -/
theorem claim4_no_reference_check (s : Storage) (gid : Nat) (sid : String)
    (defId r : Nat) (p : Player)
    (hp : s.getPlayerBySessionId sid = some p)
    (hspec : (p.role == "spectator" || p.isSpectator) = false)
    (hdup : ((s.getVotesByGameId gid (orOne r)).any (fun v => v.playerId == p.id)) = false)
    (_hnoref : (s.definitions.any
      (fun d => d.id == defId && d.gameId == gid && d.round == orOne r)) = false) :
    submitVoteHandler s gid sid defId r =
      .ok { s with
        votes := s.votes ++
          [{ id := s.voteIdCounter, gameId := gid, playerId := p.id,
             definitionId := defId, round := orOne r }],
        voteIdCounter := s.voteIdCounter + 1 } := by
  unfold submitVoteHandler
  rw [hp]
  simp [hspec, hdup, Storage.createVote, orOne_orOne]

theorem claim4_witness :
    csBase.definitions = [] ∧
    submitVoteHandler csBase 1 "b" 999 1 =
      .ok { csBase with
        votes := [{ id := 1, gameId := 1, playerId := 2, definitionId := 999, round := 1 }],
        voteIdCounter := 2 } :=
  ⟨rfl, claim4_no_reference_check csBase 1 "b" 999 1 pBob (by decide) (by decide)
    (by decide) (by decide)⟩

/-- C5: a second `submitDefinition` (resp. `submitVote`) by a player who
already has a Definition (resp. Vote) for the (game, round) is rejected
with the Conflict error reply and the state the error carries is the
unchanged incoming state; and on any success, the sender ends up with
exactly one Definition (resp. Vote) for the (game, round). -/
theorem claim5_duplicate_rejection (s : Storage) (gid : Nat) (sid text : String)
    (cor : Bool) (defId r : Nat) (p : Player)
    (hp : s.getPlayerBySessionId sid = some p) :
    (((s.getDefinitionsByGameId gid (orOne r)).any (fun d => d.playerId == p.id)) = true →
      (p.role == "spectator" || p.isSpectator) = false →
      submitDefinitionHandler s gid sid text cor r =
        .err s "You have already submitted a definition for this round.") ∧
    (((s.getVotesByGameId gid (orOne r)).any (fun v => v.playerId == p.id)) = true →
      (p.role == "spectator" || p.isSpectator) = false →
      submitVoteHandler s gid sid defId r =
        .err s "You have already voted for this round.") ∧
    (∀ s', submitDefinitionHandler s gid sid text cor r = .ok s' →
      ((s'.getDefinitionsByGameId gid (orOne r)).filter (fun d => d.playerId == p.id)).length
        = 1) ∧
    (∀ s', submitVoteHandler s gid sid defId r = .ok s' →
      ((s'.getVotesByGameId gid (orOne r)).filter (fun v => v.playerId == p.id)).length = 1) := by
  refine ⟨?_, ?_, ?_, ?_⟩
  · intro hdup hspec
    unfold submitDefinitionHandler
    rw [hp]
    simp [hspec, hdup]
  · intro hdup hspec
    unfold submitVoteHandler
    rw [hp]
    simp [hspec, hdup]
  · intro s' h
    obtain ⟨q, hq, -, hdup, hs'⟩ := submitDefinitionHandler_ok h
    rw [hp] at hq
    cases hq
    have hnone : ∀ d ∈ s.getDefinitionsByGameId gid (orOne r), ¬(d.playerId == p.id) = true :=
      by simpa using List.any_eq_false.mp hdup
    rw [hs']
    unfold Storage.getDefinitionsByGameId Storage.createDefinition
    rw [List.filter_append, List.filter_append]
    have hold : ((s.definitions.filter
        (fun d => d.gameId == gid && d.round == orOne r)).filter
          (fun d => d.playerId == p.id)) = [] := by
      rw [List.filter_eq_nil_iff]
      intro d hd
      exact hnone d hd
    simp only [show (s.getDefinitionsByGameId gid (orOne r)
      = s.definitions.filter (fun d => d.gameId == gid && d.round == orOne r)) from rfl] at hold
    simp [hold]
  · intro s' h
    obtain ⟨q, hq, -, hdup, hs'⟩ := submitVoteHandler_ok h
    rw [hp] at hq
    cases hq
    have hnone : ∀ v ∈ s.getVotesByGameId gid (orOne r), ¬(v.playerId == p.id) = true :=
      by simpa using List.any_eq_false.mp hdup
    rw [hs']
    unfold Storage.getVotesByGameId Storage.createVote
    rw [List.filter_append, List.filter_append]
    have hold : ((s.votes.filter
        (fun v => v.gameId == gid && v.round == orOne r)).filter
          (fun v => v.playerId == p.id)) = [] := by
      rw [List.filter_eq_nil_iff]
      intro v hv
      exact hnone v hv
    simp only [show (s.getVotesByGameId gid (orOne r)
      = s.votes.filter (fun v => v.gameId == gid && v.round == orOne r)) from rfl] at hold
    simp [hold, orOne_orOne]

/-- State with an existing round-1 definition and vote by player 1
(session `a`). -/
def csC5 : Storage :=
  { csBase with
    definitions := [{ id := 1, gameId := 1, playerId := 1, round := 1,
                      text := "first", isCorrect := false }],
    votes := [{ id := 1, gameId := 1, playerId := 1, definitionId := 1, round := 1 }],
    definitionIdCounter := 2, voteIdCounter := 2 }

theorem claim5_witness :
    submitDefinitionHandler csC5 1 "a" "again" false 1 =
      .err csC5 "You have already submitted a definition for this round." ∧
    submitVoteHandler csC5 1 "a" 1 1 = .err csC5 "You have already voted for this round." ∧
    (((resOf (submitDefinitionHandler csC5 1 "b" "mine" false 1)).getDefinitionsByGameId 1
        (orOne 1)).filter (fun d => d.playerId == pBob.id)).length = 1 := by
  obtain ⟨h1, h2, -, -⟩ := claim5_duplicate_rejection csC5 1 "a" "again" false 1 1 pAlice
    (by decide)
  obtain ⟨-, -, h3, -⟩ := claim5_duplicate_rejection csC5 1 "b" "mine" false 1 1 pBob
    (by decide)
  exact ⟨h1 (by decide) (by decide), h2 (by decide) (by decide), h3 _ (by decide)⟩

/-! ## Claim C7 (corrected) -/

/-- Two games; the only player belongs to game 1 under session `s`. -/
def gC7a : Game :=
  { id := 1, code := "FIRST1", phase := 1, currentWord := some "",
    dictionary := true, createdAt := "t", currentRound := 1 }

def gC7b : Game :=
  { id := 2, code := "SECOND", phase := 1, currentWord := some "",
    dictionary := true, createdAt := "t", currentRound := 1 }

def pC7 : Player :=
  { id := 1, gameId := 1, name := "P1", sessionId := "s", role := "player",
    isAdmin := true, isSpectator := false, score := 0 }

def csC7 : Storage :=
  { games := [gC7a, gC7b], players := [pC7], definitions := [], votes := [],
    gameIdCounter := 3, playerIdCounter := 2, definitionIdCounter := 1, voteIdCounter := 1 }

/-- Game 1 with its admin player only (to be removed). -/
def csC7r : Storage :=
  { games := [gC7a], players := [pC7], definitions := [], votes := [],
    gameIdCounter := 2, playerIdCounter := 2, definitionIdCounter := 1, voteIdCounter := 1 }

/-- `csC7r` after the admin has been removed: no players remain, the id
counter stands at 2. -/
def csC7empty : Storage :=
  { games := [gC7a], players := [], definitions := [], votes := [],
    gameIdCounter := 2, playerIdCounter := 2, definitionIdCounter := 1, voteIdCounter := 1 }

/-- C7 is false on the code, on both counts.  (1) The session lookup is
global: session `s` has a Player only in game 1, yet joining game 2 with
session `s` creates no Player for game 2 (the game-1 record is returned).
(2) The admin mark goes to whoever joins while the game's player list is
empty: after the first (admin) player is removed, the next join-created
player is marked admin even though it is not the first Player created
for the game. -/
theorem claim7_counterexample :
    (csC7.players.filter (fun p => p.gameId == 2 && p.sessionId == "s")) = [] ∧
    joinHandler csC7 2 "s" none false 7 = .existing csC7 pC7 ∧
    Storage.removePlayer csC7r 1 = some csC7empty ∧
    joinHandler csC7empty 1 "b" none false 9 =
      .created { csC7empty with
                   players := [{ id := 2, gameId := 1, name := "Player 9", sessionId := "b",
                                 role := "player", isAdmin := true, isSpectator := false,
                                 score := 0 }],
                   playerIdCounter := 3 }
               { id := 2, gameId := 1, name := "Player 9", sessionId := "b",
                 role := "player", isAdmin := true, isSpectator := false, score := 0 } := by
  refine ⟨rfl, by decide, by decide, by decide⟩

/-- C7 as amended: for a join on an existing game, a new Player is
created if and only if the sessionId resolves to no Player in any game
(the lookup is global, not per game); and a join-created Player is
marked admin exactly when the game's player list is empty at the moment
of creation (so the first joiner is admin, but the mark can be granted
again to a later joiner once all the game's players have been removed). -/
theorem claim7_join_creation_and_admin (s : Storage) (gid : Nat) (sid : String)
    (roleOpt : Option String) (specFlag : Bool) (rid : Nat) (g : Game)
    (hg : s.getGame gid = some g) :
    ((∃ s1 p, joinHandler s gid sid roleOpt specFlag rid = .created s1 p) ↔
      s.getPlayerBySessionId sid = none) ∧
    (∀ s1 p, joinHandler s gid sid roleOpt specFlag rid = .created s1 p →
      p.isAdmin = (s.getPlayersByGameId gid).isEmpty) := by
  cases hps : s.getPlayerBySessionId sid with
  | some q =>
    have hj : joinHandler s gid sid roleOpt specFlag rid = .existing s q := by
      unfold joinHandler
      rw [hg, hps]
    refine ⟨⟨?_, ?_⟩, ?_⟩
    · rintro ⟨s1, p, hcr⟩
      rw [hj] at hcr
      exact JoinRes.noConfusion hcr
    · intro hnone
      exact Option.noConfusion hnone
    · intro s1 p hcr
      rw [hj] at hcr
      exact JoinRes.noConfusion hcr
  | none =>
    refine ⟨⟨fun _ => rfl, fun _ => ?_⟩, ?_⟩
    · exact ⟨_, _, by unfold joinHandler; rw [hg, hps]⟩
    · intro s1 p hcr
      unfold joinHandler at hcr
      rw [hg, hps] at hcr
      dsimp only at hcr
      cases hcr
      simp [Storage.createPlayer]

theorem claim7_witness :
    csC7empty.getGame 1 = some gC7a ∧
    (csC7empty.getPlayersByGameId 1).isEmpty = true ∧
    ({ id := 2, gameId := 1, name := "Player 9", sessionId := "b", role := "player",
       isAdmin := true, isSpectator := false, score := 0 } : Player).isAdmin = true := by
  have h := (claim7_join_creation_and_admin csC7empty 1 "b" none false 9 gC7a rfl).2
    { csC7empty with
        players := [{ id := 2, gameId := 1, name := "Player 9", sessionId := "b",
                      role := "player", isAdmin := true, isSpectator := false, score := 0 }],
        playerIdCounter := 3 }
    { id := 2, gameId := 1, name := "Player 9", sessionId := "b", role := "player",
      isAdmin := true, isSpectator := false, score := 0 }
    (by decide)
  exact ⟨rfl, by decide, h.trans (by decide)⟩

/-! ## Claim C9 (confirmed) -/

/-- C9: a broadcast sends exactly one payload per room session whose
socket is present and open and whose sessionId resolves to a player;
every payload carries the identical shared snapshot `gs`, and its
`currentPlayer` is the player the recipient's sessionId resolves to.
Sessions with closed or missing sockets (or no player) are skipped
without affecting the rest. -/
theorem claim9_personalized_broadcast (room : List String) (conns : List (String × Bool))
    (s : Storage) (gs : GameStateSnap) :
    (broadcastGameState room conns s gs).length =
      (room.filter (fun sid =>
        (lookupConn conns sid == some true) && (s.getPlayerBySessionId sid).isSome)).length ∧
    (∀ pr ∈ broadcastGameState room conns s gs,
      pr.2.snap = gs ∧ s.getPlayerBySessionId pr.1 = some pr.2.currentPlayer) := by
  constructor
  · induction room with
    | nil => rfl
    | cons a t ih =>
      unfold broadcastGameState at ih ⊢
      rw [List.filterMap_cons, List.filter_cons]
      cases hl : lookupConn conns a with
      | none => simpa [hl] using ih
      | some b =>
        cases b
        · simpa [hl] using ih
        · cases hp : s.getPlayerBySessionId a with
          | none => simpa [hl, hp] using ih
          | some q => simpa [hl, hp] using ih
  · intro pr hpr
    unfold broadcastGameState at hpr
    rw [List.mem_filterMap] at hpr
    obtain ⟨sid, -, hf⟩ := hpr
    cases hl : lookupConn conns sid <;> rw [hl] at hf
    · exact Option.noConfusion hf
    next b =>
      cases b
      · exact Option.noConfusion hf
      · cases hp : s.getPlayerBySessionId sid <;> rw [hp] at hf
        · exact Option.noConfusion hf
        · cases hf
          exact ⟨rfl, hp⟩

/-- A room with one open resolvable session (`a`), one closed session
(`b`), one open spectator session (`c`) and one open session with no
player (`x`). -/
def roomC9 : List String := ["a", "b", "c", "x"]

def connsC9 : List (String × Bool) := [("a", true), ("b", false), ("c", true), ("x", true)]

def gsC9 : GameStateSnap :=
  { game := gBase, players := [pAlice, pBob, pSpec], definitions := [], votes := [] }

theorem claim9_witness :
    (broadcastGameState roomC9 connsC9 csBase gsC9).length = 2 := by
  have h := (claim9_personalized_broadcast roomC9 connsC9 csBase gsC9).1
  exact h.trans (by decide)

/-! ## Claim C10 (confirmed) -/

theorem votes_filter_relevant (defs : List Definition) (vs : List Vote) (p : Vote → Bool)
    (himp : ∀ v, p v = true → (defs.any (fun e => e.id == v.definitionId)) = true) :
    (vs.filter (fun v => defs.any (fun e => e.id == v.definitionId))).filter p
      = vs.filter p := by
  rw [List.filter_filter]
  apply List.filter_congr
  intro v _
  cases hpv : p v
  · simp
  · simp [himp v hpv]

theorem votesFor_filter_dangling (defs : List Definition) (vs : List Vote) (d : Definition)
    (hd : d ∈ defs) :
    votesFor (vs.filter (fun v => defs.any (fun e => e.id == v.definitionId))) d.id
      = votesFor vs d.id := by
  unfold votesFor
  rw [votes_filter_relevant]
  intro v hv
  rw [List.any_eq_true]
  have hv2 : v.definitionId = d.id := by simpa using hv
  exact ⟨d, hd, by simp [hv2]⟩

theorem scoreDefinitions_dangling (defs : List Definition) (vs : List Vote) :
    ∀ sub : List Definition, (∀ d ∈ sub, d ∈ defs) → ∀ s : Storage,
      scoreDefinitions s sub (vs.filter (fun v => defs.any (fun e => e.id == v.definitionId)))
        = scoreDefinitions s sub vs := by
  intro sub
  induction sub with
  | nil => intro _ _; rfl
  | cons d ds ih =>
    intro hmem s
    have hstep : scoreDefStep (vs.filter (fun v => defs.any (fun e => e.id == v.definitionId))) s d
        = scoreDefStep vs s d := by
      unfold scoreDefStep
      rw [votesFor_filter_dangling defs vs d (hmem d (by simp))]
    show scoreDefinitions
        (scoreDefStep (vs.filter (fun v => defs.any (fun e => e.id == v.definitionId))) s d) ds
        (vs.filter (fun v => defs.any (fun e => e.id == v.definitionId)))
      = scoreDefinitions (scoreDefStep vs s d) ds vs
    rw [hstep, ih (fun e he => hmem e (by simp [he]))]

theorem scoreCorrectVotes_dangling (defs : List Definition) (vs : List Vote) (s : Storage) :
    scoreCorrectVotes s defs (vs.filter (fun v => defs.any (fun e => e.id == v.definitionId)))
      = scoreCorrectVotes s defs vs := by
  unfold scoreCorrectVotes
  cases hc : defs.find? (fun d => d.isCorrect) with
  | none => rfl
  | some cd =>
    have hcd : cd ∈ defs := List.mem_of_find?_eq_some hc
    dsimp only
    rw [votes_filter_relevant]
    intro v hv
    rw [List.any_eq_true]
    have hv2 : v.definitionId = cd.id := by simpa using hv
    exact ⟨cd, hcd, by simp [hv2]⟩

/-- C10: `removePlayer(id)` deletes the player's record, their
definitions and their votes, and nothing else; other players' votes that
referenced the removed player's definitions remain stored (now dangling)
and are still returned by the round-scoped vote query; both scoring
passes ignore votes whose `definitionId` matches no surviving
definition, and `endVoting` still succeeds on the post-removal state. -/
theorem claim10_removePlayer_cascade (s s' : Storage) (pid : Nat)
    (hrm : s.removePlayer pid = some s') :
    s'.players = s.players.filter (fun q => !(q.id == pid)) ∧
    s'.definitions = s.definitions.filter (fun d => !(d.playerId == pid)) ∧
    s'.votes = s.votes.filter (fun v => !(v.playerId == pid)) ∧
    (∀ gid r (v : Vote), v ∈ s.getVotesByGameId gid r → (v.playerId == pid) = false →
      v ∈ s'.getVotesByGameId gid r) ∧
    (∀ (s0 : Storage) (defs : List Definition) (vs : List Vote),
      scoreDefinitions s0 defs (vs.filter (fun v => defs.any (fun e => e.id == v.definitionId)))
          = scoreDefinitions s0 defs vs ∧
      scoreCorrectVotes s0 defs (vs.filter (fun v => defs.any (fun e => e.id == v.definitionId)))
          = scoreCorrectVotes s0 defs vs) ∧
    (∀ gid r (sid : String) (q : Player) (g : Game),
      s'.getPlayerBySessionId sid = some q →
      (q.role == "spectator" || q.isSpectator) = false →
      s'.getGame gid = some g →
      ∃ s2, endVotingHandler s' gid sid r = .ok s2) := by
  have hs' : s' = { s with
      players := s.players.filter (fun p => !(p.id == pid)),
      definitions := s.definitions.filter (fun d => !(d.playerId == pid)),
      votes := s.votes.filter (fun v => !(v.playerId == pid)) } := by
    unfold Storage.removePlayer at hrm
    cases hg : s.getPlayer pid <;> rw [hg] at hrm
    · exact Option.noConfusion hrm
    · cases hrm
      rfl
  refine ⟨by rw [hs'], by rw [hs'], by rw [hs'], ?_, ?_, ?_⟩
  · intro gid r v hv hnot
    unfold Storage.getVotesByGameId at hv ⊢
    rw [List.mem_filter] at hv
    rw [hs']
    rw [List.mem_filter]
    refine ⟨?_, hv.2⟩
    rw [List.mem_filter]
    exact ⟨hv.1, by simp [hnot]⟩
  · intro s0 defs vs
    exact ⟨scoreDefinitions_dangling defs vs defs (fun _ h => h) s0,
           scoreCorrectVotes_dangling defs vs s0⟩
  · intro gid r sid q g hq hspec hg
    unfold endVotingHandler
    rw [hq]
    simp only [hspec]
    have hph : ∃ t, s'.updateGamePhase gid 4 = some t := by
      unfold Storage.updateGamePhase
      rw [hg]
      exact ⟨_, rfl⟩
    obtain ⟨t, hph⟩ := hph
    rw [hph]
    exact ⟨_, rfl⟩

/-- Concrete scenario for C10: player 1 authored definition 1 and voted
for definition 2; player 2 authored definition 2 and voted for
definition 1.  Removing player 1 leaves player 2's vote dangling. -/
def csC10 : Storage :=
  { csBase with
    definitions := [{ id := 1, gameId := 1, playerId := 1, round := 1,
                      text := "by one", isCorrect := false },
                    { id := 2, gameId := 1, playerId := 2, round := 1,
                      text := "by two", isCorrect := false }],
    votes := [{ id := 1, gameId := 1, playerId := 2, definitionId := 1, round := 1 },
              { id := 2, gameId := 1, playerId := 1, definitionId := 2, round := 1 }],
    definitionIdCounter := 3, voteIdCounter := 3 }

theorem claim10_witness :
    (Option.getD (csC10.removePlayer 1) csC10).votes =
      [{ id := 1, gameId := 1, playerId := 2, definitionId := 1, round := 1 }] ∧
    ({ id := 1, gameId := 1, playerId := 2, definitionId := 1, round := 1 } : Vote) ∈
      (Option.getD (csC10.removePlayer 1) csC10).getVotesByGameId 1 1 ∧
    (∃ s2, endVotingHandler (Option.getD (csC10.removePlayer 1) csC10) 1 "b" 1 = .ok s2) := by
  obtain ⟨hpl, hdf, hvt, hqr, hsc, hok⟩ :=
    claim10_removePlayer_cascade csC10 (Option.getD (csC10.removePlayer 1) csC10) 1 (by decide)
  refine ⟨hvt.trans (by decide), ?_, ?_⟩
  · exact hqr 1 1 { id := 1, gameId := 1, playerId := 2, definitionId := 1, round := 1 }
      (by decide) (by decide)
  · exact hok 1 1 "b" pBob gBase (by decide) (by decide) (by decide)

/-! ## Scoring machinery for C1 and C8: the two passes as pointwise
score adjustments -/

/-- Add `f p.id` to every player's score (specification-side view of the
scoring passes; only scores change). -/
def adjustScores (s : Storage) (f : Nat → Int) : Storage :=
  { s with players := s.players.map (fun p => { p with score := p.score + f p.id }) }

/-- Whether the scoring passes may award points to player `pid`: the
player exists and the legacy `isSpectator` flag is off. -/
def okOf (s : Storage) (pid : Nat) : Bool :=
  match s.getPlayer pid with
  | some p => !p.isSpectator
  | none => false

theorem adjustScores_congr (s : Storage) (f g : Nat → Int) (h : ∀ x, f x = g x) :
    adjustScores s f = adjustScores s g := by
  unfold adjustScores
  congr 1
  exact List.map_congr_left (fun p _ => by rw [h p.id])

theorem adjustScores_zero (s : Storage) : adjustScores s (fun _ => 0) = s := by
  have hmap : s.players.map (fun p => { p with score := p.score + (0 : Int) }) = s.players :=
    List.map_id'' (fun p => by rw [Int.add_zero]) s.players
  unfold adjustScores
  rw [hmap]

theorem adjustScores_comp (s : Storage) (f g : Nat → Int) :
    adjustScores (adjustScores s f) g = adjustScores s (fun x => f x + g x) := by
  unfold adjustScores
  congr 1
  rw [List.map_map]
  exact List.map_congr_left (fun p _ => by simp [Function.comp, Int.add_assoc])

theorem getPlayer_adjustScores (s : Storage) (f : Nat → Int) (pid : Nat) :
    (adjustScores s f).getPlayer pid
      = (s.getPlayer pid).map (fun p => { p with score := p.score + f p.id }) := by
  unfold adjustScores Storage.getPlayer
  exact find?_map_presv _ _ _ (fun _ => rfl)

theorem okOf_adjustScores (s : Storage) (f : Nat → Int) (pid : Nat) :
    okOf (adjustScores s f) pid = okOf s pid := by
  unfold okOf
  rw [getPlayer_adjustScores]
  cases s.getPlayer pid <;> rfl

theorem updatePlayerScore_getD_eq (s : Storage) (pid : Nat) (k : Int) (q : Player)
    (hq : s.getPlayer pid = some q) :
    (s.updatePlayerScore pid k).getD s
      = adjustScores s (fun x => if x == pid then k else 0) := by
  unfold Storage.updatePlayerScore adjustScores
  rw [hq]
  simp only [Option.getD_some]
  congr 1
  apply List.map_congr_left
  intro p _
  by_cases hp : (p.id == pid) = true
  · simp [hp]
  · have h2 : (p.id == pid) = false := by simpa using hp
    simp [h2]

/-- Per-definition gain of the first scoring pass, at player `x`. -/
def defStepGain (ok : Nat → Bool) (vs : List Vote) (d : Definition) (x : Nat) : Int :=
  if !d.isCorrect && votesFor vs d.id > 0 && ok d.playerId && x == d.playerId then
    (votesFor vs d.id : Int)
  else 0

/-- Total gain of the first scoring pass, at player `x`. -/
def defsGain (ok : Nat → Bool) (vs : List Vote) (defs : List Definition) (x : Nat) : Int :=
  (defs.map (fun d => defStepGain ok vs d x)).sum

/-- Per-vote gain of the second scoring pass, at player `x`. -/
def voteStepGain (ok : Nat → Bool) (v : Vote) (x : Nat) : Int :=
  if ok v.playerId && x == v.playerId then 2 else 0

/-- Total gain of the second scoring pass over a vote list, at `x`. -/
def votesGain (ok : Nat → Bool) (l : List Vote) (x : Nat) : Int :=
  (l.map (fun v => voteStepGain ok v x)).sum

/-- Total gain of the second scoring pass, at player `x`. -/
def corGain (ok : Nat → Bool) (defs : List Definition) (vs : List Vote) (x : Nat) : Int :=
  match defs.find? (fun d => d.isCorrect) with
  | some cd => votesGain ok (vs.filter (fun v => v.definitionId == cd.id)) x
  | none => 0

theorem scoreDefStep_eq_adjust (vs : List Vote) (s : Storage) (d : Definition) :
    scoreDefStep vs s d = adjustScores s (defStepGain (okOf s) vs d) := by
  unfold scoreDefStep defStepGain
  by_cases hc : (!d.isCorrect && votesFor vs d.id > 0) = true
  · rw [if_pos hc]
    cases hq : s.getPlayer d.playerId with
    | none =>
      have hok : okOf s d.playerId = false := by unfold okOf; rw [hq]
      dsimp only
      rw [eq_comm]
      calc adjustScores s _ = adjustScores s (fun _ => 0) := by
            apply adjustScores_congr
            intro x
            rw [hc, hok]
            simp
        _ = s := adjustScores_zero s
    | some q =>
      have hok : okOf s d.playerId = !q.isSpectator := by unfold okOf; rw [hq]
      dsimp only
      by_cases hsp : (!q.isSpectator) = true
      · rw [if_pos hsp, updatePlayerScore_getD_eq s d.playerId _ q hq]
        apply adjustScores_congr
        intro x
        rw [hc, hok, hsp]
        by_cases hx : (x == d.playerId) = true
        · simp [hx]
        · have h2 : (x == d.playerId) = false := by simpa using hx
          simp [h2]
      · rw [if_neg hsp]
        have hsp2 : (!q.isSpectator) = false := by simpa using hsp
        rw [eq_comm]
        calc adjustScores s _ = adjustScores s (fun _ => 0) := by
              apply adjustScores_congr
              intro x
              rw [hc, hok, hsp2]
              simp
          _ = s := adjustScores_zero s
  · rw [if_neg hc]
    have hc2 : (!d.isCorrect && votesFor vs d.id > 0) = false := by simpa using hc
    rw [eq_comm]
    calc adjustScores s _ = adjustScores s (fun _ => 0) := by
          apply adjustScores_congr
          intro x
          rw [hc2]
          simp
      _ = s := adjustScores_zero s

theorem defStepGain_congr (ok ok2 : Nat → Bool) (vs : List Vote) (d : Definition) (x : Nat)
    (h : ∀ y, ok y = ok2 y) : defStepGain ok vs d x = defStepGain ok2 vs d x := by
  unfold defStepGain
  rw [h d.playerId]

theorem defsGain_congr (ok ok2 : Nat → Bool) (vs : List Vote) (defs : List Definition) (x : Nat)
    (h : ∀ y, ok y = ok2 y) : defsGain ok vs defs x = defsGain ok2 vs defs x := by
  unfold defsGain
  congr 1
  exact List.map_congr_left (fun d _ => defStepGain_congr ok ok2 vs d x h)

theorem scoreDefinitions_eq_adjust (vs : List Vote) :
    ∀ (defs : List Definition) (s : Storage),
      scoreDefinitions s defs vs = adjustScores s (defsGain (okOf s) vs defs) := by
  intro defs
  induction defs with
  | nil =>
    intro s
    calc scoreDefinitions s [] vs = s := rfl
      _ = adjustScores s (fun _ => 0) := (adjustScores_zero s).symm
      _ = adjustScores s (defsGain (okOf s) vs []) := adjustScores_congr _ _ _ (fun _ => rfl)
  | cons d ds ih =>
    intro s
    have hstep : scoreDefinitions s (d :: ds) vs = scoreDefinitions (scoreDefStep vs s d) ds vs :=
      rfl
    rw [hstep, ih (scoreDefStep vs s d), scoreDefStep_eq_adjust]
    have hgain : defsGain (okOf (adjustScores s (defStepGain (okOf s) vs d))) vs ds
        = defsGain (okOf s) vs ds := by
      funext x
      exact defsGain_congr _ _ vs ds x (fun y => okOf_adjustScores s _ y)
    rw [hgain, adjustScores_comp]
    apply adjustScores_congr
    intro x
    unfold defsGain
    rw [List.map_cons, List.sum_cons]

theorem scoreVoteStep_eq_adjust (s : Storage) (v : Vote) :
    scoreVoteStep s v = adjustScores s (voteStepGain (okOf s) v) := by
  unfold scoreVoteStep voteStepGain
  cases hq : s.getPlayer v.playerId with
  | none =>
    have hok : okOf s v.playerId = false := by unfold okOf; rw [hq]
    dsimp only
    rw [eq_comm]
    calc adjustScores s _ = adjustScores s (fun _ => 0) := by
          apply adjustScores_congr
          intro x
          rw [hok]
          simp
      _ = s := adjustScores_zero s
  | some q =>
    have hok : okOf s v.playerId = !q.isSpectator := by unfold okOf; rw [hq]
    dsimp only
    by_cases hsp : (!q.isSpectator) = true
    · rw [if_pos hsp, updatePlayerScore_getD_eq s v.playerId _ q hq]
      apply adjustScores_congr
      intro x
      rw [hok, hsp]
      by_cases hx : (x == v.playerId) = true
      · simp [hx]
      · have h2 : (x == v.playerId) = false := by simpa using hx
        simp [h2]
    · rw [if_neg hsp]
      have hsp2 : (!q.isSpectator) = false := by simpa using hsp
      rw [eq_comm]
      calc adjustScores s _ = adjustScores s (fun _ => 0) := by
            apply adjustScores_congr
            intro x
            rw [hok, hsp2]
            simp
        _ = s := adjustScores_zero s

theorem voteStepGain_congr (ok ok2 : Nat → Bool) (v : Vote) (x : Nat)
    (h : ∀ y, ok y = ok2 y) : voteStepGain ok v x = voteStepGain ok2 v x := by
  unfold voteStepGain
  rw [h v.playerId]

theorem votesGain_congr (ok ok2 : Nat → Bool) (l : List Vote) (x : Nat)
    (h : ∀ y, ok y = ok2 y) : votesGain ok l x = votesGain ok2 l x := by
  unfold votesGain
  congr 1
  exact List.map_congr_left (fun v _ => voteStepGain_congr ok ok2 v x h)

theorem foldVotes_eq_adjust :
    ∀ (l : List Vote) (s : Storage),
      l.foldl scoreVoteStep s = adjustScores s (votesGain (okOf s) l) := by
  intro l
  induction l with
  | nil =>
    intro s
    calc List.foldl scoreVoteStep s [] = s := rfl
      _ = adjustScores s (fun _ => 0) := (adjustScores_zero s).symm
      _ = adjustScores s (votesGain (okOf s) []) := adjustScores_congr _ _ _ (fun _ => rfl)
  | cons v t ih =>
    intro s
    have hstep : List.foldl scoreVoteStep s (v :: t)
        = List.foldl scoreVoteStep (scoreVoteStep s v) t := rfl
    rw [hstep, ih (scoreVoteStep s v), scoreVoteStep_eq_adjust]
    have hgain : votesGain (okOf (adjustScores s (voteStepGain (okOf s) v))) t
        = votesGain (okOf s) t := by
      funext x
      exact votesGain_congr _ _ t x (fun y => okOf_adjustScores s _ y)
    rw [hgain, adjustScores_comp]
    apply adjustScores_congr
    intro x
    unfold votesGain
    rw [List.map_cons, List.sum_cons]

theorem scoreCorrectVotes_eq_adjust (s : Storage) (defs : List Definition) (vs : List Vote) :
    scoreCorrectVotes s defs vs = adjustScores s (corGain (okOf s) defs vs) := by
  unfold scoreCorrectVotes corGain
  cases hc : defs.find? (fun d => d.isCorrect) with
  | none =>
    calc s = adjustScores s (fun _ => 0) := (adjustScores_zero s).symm
      _ = adjustScores s (fun _ => 0) := rfl
  | some cd =>
    exact foldVotes_eq_adjust _ s

theorem defsGain_spec (ok : Nat → Bool) (vs : List Vote) (defs : List Definition) (pid : Nat) :
    defsGain ok vs defs pid =
      if ok pid then
        ((defs.filter (fun d => d.playerId == pid && !d.isCorrect)).map
          (fun d => (votesFor vs d.id : Int))).sum
      else 0 := by
  induction defs with
  | nil => cases hok : ok pid <;> simp [defsGain, hok]
  | cons d ds ih =>
    have hcons : defsGain ok vs (d :: ds) pid
        = defStepGain ok vs d pid + defsGain ok vs ds pid := by
      unfold defsGain
      rw [List.map_cons, List.sum_cons]
    rw [hcons, ih, List.filter_cons]
    by_cases hd : (d.playerId == pid && !d.isCorrect) = true
    · rw [if_pos hd]
      rw [Bool.and_eq_true] at hd
      obtain ⟨h1, h2⟩ := hd
      have he : d.playerId = pid := by simpa using h1
      subst he
      rw [List.map_cons, List.sum_cons]
      unfold defStepGain
      cases hok : ok d.playerId
      · simp [hok]
      · by_cases hv : votesFor vs d.id > 0
        · simp [h2, hok, hv]
        · have hz : votesFor vs d.id = 0 := Nat.eq_zero_of_not_pos hv
          simp [h2, hok, hv, hz]
    · rw [if_neg hd]
      have hstep : defStepGain ok vs d pid = 0 := by
        unfold defStepGain
        by_cases h1 : (d.playerId == pid) = true
        · have h2 : (!d.isCorrect) = false := by
            cases hic : (!d.isCorrect)
            · rfl
            · exact absurd (by rw [Bool.and_eq_true]; exact ⟨h1, hic⟩) hd
          simp [h2]
        · have h1f : (pid == d.playerId) = false := by
            cases hx : (pid == d.playerId)
            · rfl
            · have hxe : pid = d.playerId := by simpa using hx
              exact absurd (by simp [hxe]) h1
          simp [h1f]
      rw [hstep, zero_add]

theorem votesGain_spec (ok : Nat → Bool) (l : List Vote) (pid : Nat) :
    votesGain ok l pid =
      if ok pid then 2 * ((l.filter (fun v => v.playerId == pid)).length : Int) else 0 := by
  induction l with
  | nil => cases hok : ok pid <;> simp [votesGain, hok]
  | cons v t ih =>
    have hcons : votesGain ok (v :: t) pid = voteStepGain ok v pid + votesGain ok t pid := by
      unfold votesGain
      rw [List.map_cons, List.sum_cons]
    rw [hcons, ih, List.filter_cons]
    by_cases h1 : (v.playerId == pid) = true
    · have he : v.playerId = pid := by simpa using h1
      subst he
      rw [if_pos (show (v.playerId == v.playerId) = true by simp)]
      unfold voteStepGain
      cases hok : ok v.playerId
      · simp [hok]
      · simp only [hok, Bool.true_and, beq_self_eq_true, if_pos, List.length_cons]
        push_cast
        ring
    · have h1f : (v.playerId == pid) = false := by simpa using h1
      have h2 : (pid == v.playerId) = false := by
        cases hx : (pid == v.playerId)
        · rfl
        · have hxe : pid = v.playerId := by simpa using hx
          exact absurd (by simp [hxe]) h1
      have hstep : voteStepGain ok v pid = 0 := by
        unfold voteStepGain
        simp [h2]
      rw [hstep, zero_add, h1f]
      simp

theorem find?_unique_correct (defs : List Definition) (cd : Definition)
    (hcor : (defs.filter (fun d => d.isCorrect)).length ≤ 1)
    (hmem : cd ∈ defs) (hc : cd.isCorrect = true) :
    defs.find? (fun d => d.isCorrect) = some cd := by
  induction defs with
  | nil => cases hmem
  | cons a t ih =>
    by_cases ha : a.isCorrect = true
    · rw [List.find?_cons_of_pos _ (by simpa using ha)]
      rcases List.mem_cons.mp hmem with rfl | hmt
      · rfl
      · exfalso
        rw [List.filter_cons, if_pos (by simpa using ha), List.length_cons] at hcor
        have hft : (t.filter (fun d => d.isCorrect)).length = 0 := by omega
        rw [List.length_eq_zero] at hft
        have hmf : cd ∈ t.filter (fun d => d.isCorrect) :=
          List.mem_filter.mpr ⟨hmt, by simpa using hc⟩
        rw [hft] at hmf
        cases hmf
    · rw [List.find?_cons_of_neg _ (by simpa using ha)]
      apply ih
      · rwa [List.filter_cons, if_neg (by simpa using ha)] at hcor
      · rcases List.mem_cons.mp hmem with rfl | hmt
        · exact absurd hc ha
        · exact hmt

theorem filter_mono_length {α : Type} (l : List α) (p q : α → Bool)
    (h : ∀ x, p x = true → q x = true) :
    (l.filter p).length ≤ (l.filter q).length := by
  induction l with
  | nil => simp
  | cons a t ih =>
    rw [List.filter_cons, List.filter_cons]
    by_cases hp : p a = true
    · rw [if_pos hp, if_pos (h a hp)]
      simpa using ih
    · rw [if_neg hp]
      by_cases hq : q a = true
      · rw [if_pos hq, List.length_cons]
        omega
      · rw [if_neg hq]
        exact ih

theorem two_mul_count_le_one (l : List Vote) (pr : Vote → Bool)
    (h : (l.filter pr).length ≤ 1) :
    (2 * ((l.filter pr).length : Int)) = if l.any pr then 2 else 0 := by
  cases hfl : l.filter pr with
  | nil =>
    have hany : l.any pr = false := by
      rw [List.any_eq_false]
      intro a ha
      exact List.filter_eq_nil_iff.mp hfl a ha
    rw [hany]
    simp
  | cons a t =>
    have ht : t = [] := by
      rw [hfl, List.length_cons] at h
      rw [← List.length_eq_zero]
      omega
    subst ht
    have hmemf : a ∈ l.filter pr := by rw [hfl]; exact List.mem_singleton.mpr rfl
    have hal : a ∈ l := (List.mem_filter.mp hmemf).1
    have hpa : pr a = true := (List.mem_filter.mp hmemf).2
    have hany : l.any pr = true := by
      rw [List.any_eq_true]
      exact ⟨a, hal, hpa⟩
    rw [hany]
    simp

theorem getPlayer_of_players_eq {s t : Storage} (h : t.players = s.players) (pid : Nat) :
    t.getPlayer pid = s.getPlayer pid := by
  unfold Storage.getPlayer
  rw [h]

theorem getDefinitions_of_eq {s t : Storage} (h : t.definitions = s.definitions)
    (gid r : Nat) : t.getDefinitionsByGameId gid r = s.getDefinitionsByGameId gid r := by
  unfold Storage.getDefinitionsByGameId
  rw [h]

theorem getVotes_of_eq {s t : Storage} (h : t.votes = s.votes)
    (gid r : Nat) : t.getVotesByGameId gid r = s.getVotesByGameId gid r := by
  unfold Storage.getVotesByGameId
  rw [h]

theorem corGain_congr (ok ok2 : Nat → Bool) (defs : List Definition) (vs : List Vote)
    (x : Nat) (h : ∀ y, ok y = ok2 y) : corGain ok defs vs x = corGain ok2 defs vs x := by
  unfold corGain
  cases defs.find? (fun d => d.isCorrect)
  · rfl
  · exact votesGain_congr _ _ _ x h

/-- Success of `endVoting` means: phase set to 4, then both scoring
passes applied — equivalently, every player's score adjusted by the sum
of the two pointwise gains. -/
theorem endVoting_adjust {s s' : Storage} {gid r : Nat} {sid : String}
    (hres : endVotingHandler s gid sid r = .ok s') :
    ∃ s1, s.updateGamePhase gid 4 = some s1 ∧ s1.players = s.players ∧
      s' = adjustScores s1 (fun x =>
        defsGain (okOf s1) (s.getVotesByGameId gid (orOne r))
          (s.getDefinitionsByGameId gid (orOne r)) x
        + corGain (okOf s1) (s.getDefinitionsByGameId gid (orOne r))
            (s.getVotesByGameId gid (orOne r)) x) := by
  obtain ⟨p, s1, hp, hspec, hph, hs'⟩ := endVotingHandler_ok hres
  have hframe := updateGamePhase_frame hph
  refine ⟨s1, hph, hframe.1, ?_⟩
  rw [hs', getDefinitions_of_eq hframe.2.1, getVotes_of_eq hframe.2.2,
    scoreDefinitions_eq_adjust, scoreCorrectVotes_eq_adjust]
  have hcg : corGain (okOf (adjustScores s1
        (defsGain (okOf s1) (s.getVotesByGameId gid (orOne r))
          (s.getDefinitionsByGameId gid (orOne r)))))
        (s.getDefinitionsByGameId gid (orOne r)) (s.getVotesByGameId gid (orOne r))
      = corGain (okOf s1)
        (s.getDefinitionsByGameId gid (orOne r)) (s.getVotesByGameId gid (orOne r)) := by
    funext x
    exact corGain_congr _ _ _ _ x (fun y => okOf_adjustScores s1 _ y)
  rw [hcg, adjustScores_comp]

/-- C1: at the Voting→Results transition, for every existing player the
score changes by exactly the deception points (the vote counts of their
own non-correct definitions of the round, when the player is not a
spectator) plus a flat 2 when a correct definition exists, the player is
not a spectator, and the player voted for it; every other field of the
player is untouched, so every other player's score is unchanged.  The
hypotheses are the data-model invariants: at most one correct definition
in the round, and at most one vote by the player in the round; the last
conjunct shows the first correct definition found is THE correct
definition under that invariant. -/
theorem claim1_endVoting_scoring (s s' : Storage) (gid r pid : Nat) (sid : String) (p : Player)
    (hres : endVotingHandler s gid sid r = .ok s')
    (hp : s.getPlayer pid = some p)
    (hcor : ((s.getDefinitionsByGameId gid (orOne r)).filter
      (fun d => d.isCorrect)).length ≤ 1)
    (hvote : ((s.getVotesByGameId gid (orOne r)).filter
      (fun v => v.playerId == pid)).length ≤ 1) :
    ∃ p', s'.getPlayer pid = some p' ∧
      p'.sessionId = p.sessionId ∧ p'.role = p.role ∧ p'.isSpectator = p.isSpectator ∧
      p'.score = p.score
        + (if p.isSpectator then 0
           else (((s.getDefinitionsByGameId gid (orOne r)).filter
                    (fun d => d.playerId == pid && !d.isCorrect)).map
                  (fun d => (votesFor (s.getVotesByGameId gid (orOne r)) d.id : Int))).sum)
        + (match (s.getDefinitionsByGameId gid (orOne r)).find? (fun d => d.isCorrect) with
           | some cd =>
             if !p.isSpectator &&
                (s.getVotesByGameId gid (orOne r)).any
                  (fun v => v.playerId == pid && v.definitionId == cd.id) then 2 else 0
           | none => 0) ∧
      (∀ cd ∈ s.getDefinitionsByGameId gid (orOne r), cd.isCorrect = true →
        (s.getDefinitionsByGameId gid (orOne r)).find? (fun d => d.isCorrect) = some cd) := by
  obtain ⟨s1, hph, hpl, hs'⟩ := endVoting_adjust hres
  have hp1 : s1.getPlayer pid = some p := by
    rw [getPlayer_of_players_eq hpl]
    exact hp
  have hpid : p.id = pid := by
    have hf := List.find?_some (show s.players.find? (fun q => q.id == pid) = some p from hp)
    simpa using hf
  have hok1 : okOf s1 pid = !p.isSpectator := by
    unfold okOf
    rw [hp1]
  have hgp : s'.getPlayer pid = some { p with score := p.score
      + (defsGain (okOf s1) (s.getVotesByGameId gid (orOne r))
           (s.getDefinitionsByGameId gid (orOne r)) pid
         + corGain (okOf s1) (s.getDefinitionsByGameId gid (orOne r))
             (s.getVotesByGameId gid (orOne r)) pid) } := by
    rw [hs', getPlayer_adjustScores, hp1, Option.map_some', hpid]
  refine ⟨_, hgp, rfl, rfl, rfl, ?_, fun cd hm hc => find?_unique_correct _ cd hcor hm hc⟩
  show p.score + _ = _
  have hA : defsGain (okOf s1) (s.getVotesByGameId gid (orOne r))
      (s.getDefinitionsByGameId gid (orOne r)) pid
      = (if p.isSpectator then 0
         else (((s.getDefinitionsByGameId gid (orOne r)).filter
                  (fun d => d.playerId == pid && !d.isCorrect)).map
                (fun d => (votesFor (s.getVotesByGameId gid (orOne r)) d.id : Int))).sum) := by
    rw [defsGain_spec, hok1]
    cases hsp : p.isSpectator <;> simp
  have hB : corGain (okOf s1) (s.getDefinitionsByGameId gid (orOne r))
      (s.getVotesByGameId gid (orOne r)) pid
      = (match (s.getDefinitionsByGameId gid (orOne r)).find? (fun d => d.isCorrect) with
         | some cd =>
           if !p.isSpectator &&
              (s.getVotesByGameId gid (orOne r)).any
                (fun v => v.playerId == pid && v.definitionId == cd.id) then 2 else 0
         | none => 0) := by
    unfold corGain
    cases hfind : (s.getDefinitionsByGameId gid (orOne r)).find? (fun d => d.isCorrect) with
    | none => rfl
    | some cd =>
      dsimp only
      rw [votesGain_spec, hok1, List.filter_filter]
      cases hsp : p.isSpectator
      · have hcnt : ((s.getVotesByGameId gid (orOne r)).filter
            (fun v => v.playerId == pid && v.definitionId == cd.id)).length ≤ 1 := by
          refine le_trans (filter_mono_length _ _ _ ?_) hvote
          intro x hx
          rw [Bool.and_eq_true] at hx
          exact hx.1
        rw [two_mul_count_le_one _ _ hcnt]
        simp
      · simp [hsp]
  rw [hA, hB]
  ring

/-- C8: spectators never gain score: for a player whose role is
spectator (with the store's role/flag consistency, which both player
creation paths establish), the `endVoting` scoring passes leave the
entire player record unchanged, and an `awardBonus` targeting them is
rejected with an error, which leaves all state unchanged. -/
theorem claim8_spectator_scores_frozen (s s' : Storage) (gid r pid : Nat) (sid : String)
    (p : Player)
    (hcons : ∀ q ∈ s.players, q.isSpectator = (q.role == "spectator"))
    (hp : s.getPlayer pid = some p)
    (hrole : p.role = "spectator") :
    (endVotingHandler s gid sid r = .ok s' → s'.getPlayer pid = some p) ∧
    (∀ a, s.getPlayerBySessionId sid = some a → a.isAdmin = true → (pid == 0) = false →
      awardBonusHandler s gid sid pid = .err s "Cannot award points to spectators.") := by
  have hspt : p.isSpectator = true := by
    have hm := hcons p (List.mem_of_find?_eq_some hp)
    rw [hm, hrole]
    decide
  constructor
  · intro hres
    obtain ⟨s1, hph, hpl, hs'⟩ := endVoting_adjust hres
    have hp1 : s1.getPlayer pid = some p := by
      rw [getPlayer_of_players_eq hpl]
      exact hp
    have hpid : p.id = pid := by
      have hf := List.find?_some (show s.players.find? (fun q => q.id == pid) = some p from hp)
      simpa using hf
    have hok1 : okOf s1 pid = false := by
      unfold okOf
      rw [hp1]
      dsimp only
      rw [hspt]
      rfl
    have hdg : defsGain (okOf s1) (s.getVotesByGameId gid (orOne r))
        (s.getDefinitionsByGameId gid (orOne r)) pid = 0 := by
      rw [defsGain_spec, hok1]
      simp
    have hcg : corGain (okOf s1) (s.getDefinitionsByGameId gid (orOne r))
        (s.getVotesByGameId gid (orOne r)) pid = 0 := by
      unfold corGain
      cases (s.getDefinitionsByGameId gid (orOne r)).find? (fun d => d.isCorrect)
      · rfl
      · dsimp only
        rw [votesGain_spec, hok1]
        simp
    rw [hs', getPlayer_adjustScores, hp1, Option.map_some', hpid, hdg, hcg]
    simp [← hpid]
  · intro a ha hadm hz
    unfold awardBonusHandler
    rw [ha]
    simp [hadm, hz, hp, hspt]

/-- Concrete state realizing the spec's scoring example: D1 (incorrect,
by player 1) receives 3 votes (players 4, 5, 6); D2 (correct, by
player 6) receives 2 votes (players 2 and 3). -/
def csC1 : Storage :=
  { games := [{ gBase with phase := 3 }],
    players := [pAlice, pBob,
      { id := 3, gameId := 1, name := "P3", sessionId := "c3", role := "player",
        isAdmin := false, isSpectator := false, score := 0 },
      { id := 4, gameId := 1, name := "P4", sessionId := "d", role := "player",
        isAdmin := false, isSpectator := false, score := 0 },
      { id := 5, gameId := 1, name := "P5", sessionId := "e", role := "player",
        isAdmin := false, isSpectator := false, score := 0 },
      { id := 6, gameId := 1, name := "P6", sessionId := "f", role := "player",
        isAdmin := false, isSpectator := false, score := 0 }],
    definitions := [{ id := 1, gameId := 1, playerId := 1, round := 1,
                      text := "fake", isCorrect := false },
                    { id := 2, gameId := 1, playerId := 6, round := 1,
                      text := "real", isCorrect := true }],
    votes := [{ id := 1, gameId := 1, playerId := 4, definitionId := 1, round := 1 },
              { id := 2, gameId := 1, playerId := 5, definitionId := 1, round := 1 },
              { id := 3, gameId := 1, playerId := 6, definitionId := 1, round := 1 },
              { id := 4, gameId := 1, playerId := 2, definitionId := 2, round := 1 },
              { id := 5, gameId := 1, playerId := 3, definitionId := 2, round := 1 }],
    gameIdCounter := 2, playerIdCounter := 7, definitionIdCounter := 3, voteIdCounter := 6 }

theorem claim1_witness :
    (∃ p1, (resOf (endVotingHandler csC1 1 "a" 1)).getPlayer 1 = some p1 ∧ p1.score = 3) ∧
    (∃ p2, (resOf (endVotingHandler csC1 1 "a" 1)).getPlayer 2 = some p2 ∧ p2.score = 2) ∧
    (∃ p4, (resOf (endVotingHandler csC1 1 "a" 1)).getPlayer 4 = some p4 ∧ p4.score = 0) := by
  obtain ⟨q1, hq1, -, -, -, hs1, -⟩ := claim1_endVoting_scoring csC1
    (resOf (endVotingHandler csC1 1 "a" 1)) 1 1 1 "a" pAlice
    (by decide) (by decide) (by decide) (by decide)
  obtain ⟨q2, hq2, -, -, -, hs2, -⟩ := claim1_endVoting_scoring csC1
    (resOf (endVotingHandler csC1 1 "a" 1)) 1 1 2 "a" pBob
    (by decide) (by decide) (by decide) (by decide)
  obtain ⟨q4, hq4, -, -, -, hs4, -⟩ := claim1_endVoting_scoring csC1
    (resOf (endVotingHandler csC1 1 "a" 1)) 1 1 4 "a"
    { id := 4, gameId := 1, name := "P4", sessionId := "d", role := "player",
      isAdmin := false, isSpectator := false, score := 0 }
    (by decide) (by decide) (by decide) (by decide)
  exact ⟨⟨q1, hq1, hs1.trans (by decide)⟩, ⟨q2, hq2, hs2.trans (by decide)⟩,
    ⟨q4, hq4, hs4.trans (by decide)⟩⟩

/-- State for the C8 witness: the spectator (player 3) authored a fake
definition that received a vote, and voted for the correct definition —
yet gains nothing. -/
def csC8 : Storage :=
  { csBase with
    games := [{ gBase with phase := 3 }],
    definitions := [{ id := 1, gameId := 1, playerId := 3, round := 1,
                      text := "specfake", isCorrect := false },
                    { id := 2, gameId := 1, playerId := 1, round := 1,
                      text := "real", isCorrect := true }],
    votes := [{ id := 1, gameId := 1, playerId := 2, definitionId := 1, round := 1 },
              { id := 2, gameId := 1, playerId := 3, definitionId := 2, round := 1 }],
    definitionIdCounter := 3, voteIdCounter := 3 }

theorem claim8_witness :
    (resOf (endVotingHandler csC8 1 "a" 1)).getPlayer 3 = some pSpec ∧
    awardBonusHandler csC8 1 "a" 3 = .err csC8 "Cannot award points to spectators." := by
  obtain ⟨h1, h2⟩ := claim8_spectator_scores_frozen csC8
    (resOf (endVotingHandler csC8 1 "a" 1)) 1 1 3 "a" pSpec
    (by decide) (by decide) (by decide)
  exact ⟨h1 (by decide), h2 pAlice (by decide) (by decide) (by decide)⟩

end Galactic
